import Mathlib

/-!
Verification of the media-relay bot (`main.py`) against its specification.

The Python source is shallowly embedded: pure fragments become Lean
functions, the regex-driven caption template is represented by a parsed
segment list, and handler state (per-owner dictionaries, pending
track-selection entries) is passed explicitly.  Python strings are
manipulated through their character lists so that every definition is
executable by the kernel.
-/

namespace Bot3

/-! ## Python-style string helpers

Each helper mirrors one Python string primitive used by `main.py`.
-/

/-- Python `str.split(sep)` for a one-character separator: `"".split(',') = ['']`,
`"a,b".split(',') = ['a','b']`. -/
def splitOnChar (sep : Char) : List Char → List (List Char)
  | [] => [[]]
  | c :: rest =>
    let r := splitOnChar sep rest
    if c = sep then [] :: r
    else
      match r with
      | [] => [[c]]
      | h :: t => (c :: h) :: t

/-- Python `str.strip()`: drop leading and trailing whitespace characters. -/
def stripList (l : List Char) : List Char :=
  ((l.dropWhile Char.isWhitespace).reverse.dropWhile Char.isWhitespace).reverse

/-- Value of a plain decimal digit string, as computed by Python `int` on a
string that consists of digits only. -/
def digitsVal (l : List Char) : Nat :=
  l.foldl (fun n c => 10 * n + (c.toNat - 48)) 0

/-- Python `int(s)` on a stripped string: optional sign followed by at least
one decimal digit; anything else raises `ValueError`, modelled as `none`. -/
def pyInt (s : String) : Option Int :=
  match stripList s.data with
  | [] => none
  | '+' :: rest =>
    if rest.isEmpty then none
    else if rest.all Char.isDigit then some (digitsVal rest) else none
  | '-' :: rest =>
    if rest.isEmpty then none
    else if rest.all Char.isDigit then some (-(digitsVal rest : Int)) else none
  | l =>
    if l.all Char.isDigit then some (digitsVal l) else none

/-- Concatenation of rendered template segments. -/
def strJoin : List String → String
  | [] => ""
  | s :: rest => s ++ strJoin rest

/-- Python `f"{v:0{w}d}"` for a natural number: zero-pad to width `w`,
never truncating. -/
def zeroPad (w v : Nat) : String :=
  let s := toString v
  String.mk (List.replicate (w - s.length) '0') ++ s

/-! ## Caption engine state (`USER_COUNTERS[uid]`, `main.py` line 1346)

`USER_COUNTERS[uid] = {'uploads': 0, 'episode_numbers': {},
'dynamic_counters': {}, 're_options_count': 0}`.  The `episode_numbers`
key is initialized but never read or written afterwards, so it is omitted.
`dynamic_counters` is a Python dict keyed by the literal placeholder match
(e.g. `"01"` or `"(01)"`); it is modelled as an insertion-ordered
association list.
-/

structure CounterEntry where
  value : Nat
  has_paren : Bool
deriving DecidableEq, Repr

structure CounterState where
  uploads : Nat
  dynamic_counters : List (String × CounterEntry)
  re_options_count : Nat
deriving DecidableEq, Repr

/-- Fresh per-owner state, created on the first expansion after
`/set_caption` popped the previous state (`main.py` lines 1344-1346). -/
def initCounterState : CounterState := ⟨0, [], 0⟩

/-! ## Caption template

`process_dynamic_caption` recognizes three placeholder kinds by regex:
cycle `[re (a, b, ...)]` (line 1352), counter `[01]` / `[(01)]`
(line 1370) and conditional `[TEXT (M)]` (line 1418).  A template is
embedded as the list of its segments; a `cycle` segment carries the raw
text captured between the parentheses, and a `cond` segment carries the
two raw capture groups of the conditional regex (for the canonical
source form `[End (02)]` the greedy first group is `"End "` and the
second `"02"`). -/
inductive Seg where
  | lit (s : String)
  | cycle (raw : String)
  | counter (numLit : String) (paren : Bool)
  | cond (g1 : String) (g2 : String)
deriving DecidableEq, Repr

/-- Option list of a cycle placeholder:
`[opt.strip() for opt in options_str.split(',') if opt.strip()]`
(`main.py` line 1356). -/
def parseOptions (raw : String) : List String :=
  ((splitOnChar ',' raw.data).map stripList).filterMap
    (fun l => if l.isEmpty then none else some (String.mk l))

/-- Regex search `re.search` finds the first cycle placeholder (`main.py` line 1352). -/
def firstCycle : List Seg → Option String
  | [] => none
  | .cycle raw :: _ => some raw
  | _ :: rest => firstCycle rest

/-- Substitution `re.sub` over the cycle regex (line 1366): every cycle occurrence is
replaced by the same chosen option. -/
def cycleReplace (repl : String) : Seg → Seg
  | .cycle _ => .lit repl
  | s => s

/-- Step 1 of `process_dynamic_caption` (lines 1351-1366): pick the
replacement from the first cycle's options using `re_options_count`
(resetting it when it has reached the option count), advance the counter,
and substitute every cycle occurrence by the same replacement. -/
def cycleStep (st : CounterState) (tmpl : List Seg) : CounterState × List Seg :=
  match firstCycle tmpl with
  | none => (st, tmpl)
  | some raw =>
    let options := parseOptions raw
    let res :=
      if options.length = 0 then (st, "")
      else
        let c := if options.length ≤ st.re_options_count then 0 else st.re_options_count
        ({ st with re_options_count := c + 1 }, options.getD c "")
    (res.1, tmpl.map (cycleReplace res.2))

/-- Dict key of a counter placeholder: the regex match content, parens
included (`main.py` line 1370). -/
def keyOf (numLit : String) (paren : Bool) : String :=
  if paren then "(" ++ numLit ++ ")" else numLit

/-- Python `re.sub(r'[()]', '', match)` (line 1375): remove every paren char. -/
def stripParens (s : String) : String :=
  String.mk (s.data.filter fun c => !(c == '(' || c == ')'))

/-- Python `match.startswith('(') and match.endswith(')')` (line 1379). -/
def hasParenKey (key : String) : Bool :=
  (match key.data with
   | '(' :: _ => true
   | _ => false) &&
  (match key.data.getLast? with
   | some ')' => true
   | _ => false)

/-- The key a segment contributes to the counter-regex match list
(line 1370): only counter segments match. -/
def segCounterKey : Seg → Option String
  | .counter s p => some (keyOf s p)
  | _ => none

/-- The counter keys occurring in the (cycle-substituted) template.
Python iterates `sorted(list(set(matches)))` (line 1373); only the set of
keys matters, because the dict is consulted by key, so the embedding
deduplicates without re-sorting. -/
def uniqueCounterKeys (tmpl : List Seg) : List String :=
  (tmpl.filterMap segCounterKey).dedup

/-- Association-list lookup for the `dynamic_counters` dict. -/
def alookup (k : String) : List (String × CounterEntry) → Option CounterEntry
  | [] => none
  | (k', v) :: rest => if k' = k then some v else alookup k rest

/-- In-place `+= 1` on the entry stored under `k` (line 1386). -/
def bumpKey (k : String) (dc : List (String × CounterEntry)) :
    List (String × CounterEntry) :=
  dc.map fun p => if p.1 = k then (p.1, ⟨p.2.value + 1, p.2.has_paren⟩) else p

/-- Seeding `initial_value = int(num_part)` (line 1376); the regex guarantees the
stripped key is a nonempty digit string. -/
def seedVal (key : String) : Nat :=
  digitsVal (stripParens key).data

/-- Lines 1381-1386: seed the counter from its literal on first sight,
otherwise increment it. -/
def seedOrBump (dc : List (String × CounterEntry)) (key : String) :
    List (String × CounterEntry) :=
  match alookup key dc with
  | none => dc ++ [(key, ⟨seedVal key, hasParenKey key⟩)]
  | some _ => bumpKey key dc

/-- Step 2 of `process_dynamic_caption` (lines 1368-1386). -/
def counterStep (st : CounterState) (tmpl : List Seg) : CounterState :=
  { st with
    dynamic_counters := (uniqueCounterKeys tmpl).foldl seedOrBump st.dynamic_counters }

/-- Episode number `min(data['value'] for data in dynamic_counters.values())`, `0` when
the dict is empty (lines 1410-1413). -/
def episodeNum (dc : List (String × CounterEntry)) : Nat :=
  match dc.map (fun p => p.2.value) with
  | [] => 0
  | v :: vs => vs.foldl Nat.min v

/-- Conditional placeholder handling (lines 1418-1437).  The placeholder
string that Python searches for is rebuilt from the *stripped* capture
groups with a single space (`f"[{text_to_insert} ({target_num_str})]"`,
line 1430); when that string differs from the matched surface text the
`str.replace` calls find nothing and the placeholder stays verbatim, and
an unparsable target number (`ValueError`, line 1426) also leaves it
verbatim. -/
def renderCond (ep : Nat) (g1 g2 : String) : String :=
  match pyInt g2 with
  | none => "[" ++ g1 ++ "(" ++ g2 ++ ")]"
  | some m =>
    if "[" ++ g1 ++ "(" ++ g2 ++ ")]"
        = "[" ++ String.mk (stripList g1.data) ++ " ("
          ++ String.mk (stripList g2.data) ++ ")]" then
      if (ep : Int) = m then String.mk (stripList g1.data) else ""
    else "[" ++ g1 ++ "(" ++ g2 ++ ")]"

/-- Rendering of one segment of the cycle-substituted template
(counter replacement: lines 1391-1405; conditional: lines 1407-1437). -/
def renderSeg (dc : List (String × CounterEntry)) (ep : Nat) : Seg → String
  | .lit s => s
  | .cycle raw => "[re (" ++ raw ++ ")]"
  | .counter s p =>
    match alookup (keyOf s p) dc with
    | none => "[" ++ keyOf s p ++ "]"
    | some e =>
      let f := zeroPad (stripParens (keyOf s p)).length e.value
      if e.has_paren then "(" ++ f ++ ")" else f
  | .cond g1 g2 => renderCond ep g1 g2

/-- Function `process_dynamic_caption(uid, caption_template)` (`main.py`
lines 1343-1439), with the owner's `USER_COUNTERS` entry passed and
returned explicitly. -/
def process_dynamic_caption (st : CounterState) (tmpl : List Seg) :
    CounterState × String :=
  let stU := { st with uploads := st.uploads + 1 }
  let p := cycleStep stU tmpl
  let st3 := counterStep p.1 p.2
  let ep := episodeNum st3.dynamic_counters
  (st3, strJoin (p.2.map (renderSeg st3.dynamic_counters ep)))

/-- Owner state after `k` expansions of a freshly set template. -/
def expandState (tmpl : List Seg) : Nat → CounterState
  | 0 => initCounterState
  | k + 1 => (process_dynamic_caption (expandState tmpl k) tmpl).1

/-- Caption text produced by the `k`-th expansion (`k ≥ 1`) after the
template was set. -/
def nthExpansion (tmpl : List Seg) (k : Nat) : String :=
  (process_dynamic_caption (expandState tmpl (k - 1)) tmpl).2

/-- Shorthand for a run of literal segments. -/
def litSegs (xs : List String) : List Seg := xs.map Seg.lit

/-! ## Track selection (`text_handler` audio-order branch, `main.py`
lines 779-835, and `handle_audio_remux`, lines 1632-1654) -/

/-- One entry of the ffprobe track list (`main.py` lines 197-207). -/
structure AudioTrack where
  stream_index : Nat
  language : String
  title : String
deriving DecidableEq, Repr, Inhabited

/-- One `PENDING_AUDIO_ORDERS` value (`main.py` lines 1767-1772). -/
structure PendingEntry where
  uid : Nat
  path : String
  original_name : String
  tracks : List AudioTrack
deriving DecidableEq, Repr

/-- Tokenization `[t.strip() for t in text.split(',') if t.strip().isdigit()]`
(line 786): non-digit tokens are silently dropped, not rejected. -/
def orderTokens (text : String) : List (List Char) :=
  ((splitOnChar ',' text.data).map stripList).filter
    (fun l => !l.isEmpty && l.all Char.isDigit)

/-- Outcome of one audio-order reply (lines 790-822): each rejection
constructor carries exactly the numbers interpolated into its Bengali
error message. -/
inductive OrderReply where
  | countMismatch (required : Nat)
  | badFormat
  | tooMany (requested : Nat) (total : Nat)
  | outOfRange (n : Nat) (valid : List Nat)
  | accepted (new_stream_map : List String)
deriving DecidableEq, Repr

/-- The per-token loop (lines 804-811): the first index outside
`[1, trackCount]` aborts with that number, otherwise each chosen index is
mapped to `"0:" + tracks[n-1].stream_index`. -/
def buildMap (tracks : List AudioTrack) : List (List Char) → Except Nat (List String)
  | [] => .ok []
  | tok :: rest =>
    let n := digitsVal tok
    if 1 ≤ n ∧ n ≤ tracks.length then
      match buildMap tracks rest with
      | .ok ms => .ok (("0:" ++ toString ((tracks.getD (n - 1) default).stream_index)) :: ms)
      | .error e => .error e
    else .error n

/-- Validation of an audio-order reply against a pending file's tracks,
in source order (lines 786-811): exact-count check for fewer than 5
tracks first, then the empty check, the too-many check, and the
per-index range check. -/
def validateOrderReply (text : String) (tracks : List AudioTrack) : OrderReply :=
  let toks := orderTokens text
  if tracks.length < 5 ∧ toks.length ≠ tracks.length then .countMismatch tracks.length
  else if toks.length = 0 then .badFormat
  else if tracks.length < toks.length then .tooMany toks.length tracks.length
  else
    match buildMap tracks toks with
    | .error n => .outOfRange n (List.range' 1 tracks.length)
    | .ok ms => .accepted ms

/-- Python `', '.join(map(str, valid_user_indices))` (line 807). -/
def joinComma : List Nat → String
  | [] => ""
  | [n] => toString n
  | n :: rest => toString n ++ ", " ++ joinComma rest

/-- The Bengali error text sent for each rejection
(lines 792, 795, 798, 807); `none` for an accepted reply. -/
def orderReplyMessage : OrderReply → Option String
  | .countMismatch T =>
    some ("এই ফাইলে " ++ toString T ++ "টি ট্র্যাক আছে। আপনাকে অবশ্যই ঠিক " ++ toString T
      ++ "টি ট্র্যাকের অর্ডার দিতে হবে।")
  | .badFormat => some "ভুল ফরম্যাট। কমা-সেপারেটেড সংখ্যা দিন। উদাহরণ: `3,2,1`"
  | .tooMany R T =>
    some ("আপনি " ++ toString R ++ "টি ট্র্যাক চেয়েছেন, কিন্তু ফাইলে মাত্র " ++ toString T
      ++ "টি ট্র্যাক আছে।")
  | .outOfRange n valid =>
    some ("ভুল ট্র্যাক নম্বর: " ++ toString n ++ "। ট্র্যাক নম্বরগুলো হতে হবে: " ++ joinComma valid)
  | .accepted _ => none

/-- Lookup in `PENDING_AUDIO_ORDERS`, keyed by prompt message id. -/
def plookup (k : Nat) : List (Nat × PendingEntry) → Option PendingEntry
  | [] => none
  | (k', v) :: rest => if k' = k then some v else plookup k rest

/-- Removal `PENDING_AUDIO_ORDERS.pop(prompt_message_id, None)`. -/
def eraseKey (k : Nat) (l : List (Nat × PendingEntry)) : List (Nat × PendingEntry) :=
  l.filter fun p => p.1 ≠ k

/-- State effect of the audio-order branch of `text_handler`
(lines 779-835): replies to unknown prompt ids or from a different owner
are ignored; a valid reply starts the remux and pops the entry
(line 821); every rejection leaves `PENDING_AUDIO_ORDERS` untouched. -/
def handleOrderReply (pending : List (Nat × PendingEntry)) (promptId uid : Nat)
    (text : String) : List (Nat × PendingEntry) × Option OrderReply :=
  match plookup promptId pending with
  | none => (pending, none)
  | some e =>
    if e.uid = uid then
      match validateOrderReply text e.tracks with
      | .accepted ms => (eraseKey promptId pending, some (.accepted ms))
      | r => (pending, some r)
    else (pending, none)

/-- The ffmpeg argv built by `handle_audio_remux` (lines 1642-1654):
map video, subtitles and data streams, then the selected audio streams in
reply order, clearing the default disposition on all audio and setting it
on the first mapped audio stream. -/
def remuxCmd (inPath outPath : String) (new_stream_map : List String) : List String :=
  ["ffmpeg", "-i", inPath, "-disposition:a", "0"]
    ++ (["-map", "0:v", "-map", "0:s?", "-map", "0:d?"]
        ++ new_stream_map.flatMap (fun s => ["-map", s]))
    ++ ["-disposition:a:0", "default", "-c", "copy", "-metadata", "handler_name=", outPath]

/-! ## Mode toggling and prompt cancellation (C4) -/

/-- The global state touched by `/mkv_video_audio_change` and the prompt
cancel button: `MKV_AUDIO_CHANGE_MODE` (a set of owner ids) and
`PENDING_AUDIO_ORDERS`. -/
structure BotState where
  audio_change_mode : Finset Nat
  pending_audio_orders : List (Nat × PendingEntry)
deriving DecidableEq

/-- Handler `toggle_audio_change_mode` (`main.py` lines 622-639).  The second
component lists the files the handler unlinks: none — the handler only
flips the mode flag, and the comment at line 633 states that
`PENDING_AUDIO_ORDERS` is deliberately not cleaned up here. -/
def toggle_audio_change_mode (uid : Nat) (st : BotState) : BotState × List String :=
  if uid ∈ st.audio_change_mode then
    ({ st with audio_change_mode := st.audio_change_mode.erase uid }, [])
  else
    ({ st with audio_change_mode := insert uid st.audio_change_mode }, [])

/-- The pending-prompt part of `cancel_task_cb` (lines 1252-1278): the
entry is popped before the owner check; the held file is unlinked only
when the presser owns the entry. -/
def cancel_task_cb (promptId uid : Nat) (st : BotState) : BotState × List String :=
  match plookup promptId st.pending_audio_orders with
  | none => (st, [])
  | some e =>
    let st' := { st with pending_audio_orders := eraseKey promptId st.pending_audio_orders }
    if e.uid = uid then (st', [e.path]) else (st', [])

/-! ## Standardization planner (C6) -/

/-- Python `str.lower()` on an extension. -/
def lowerExt (s : String) : String := String.mk (s.data.map Char.toLower)

/-- Target container chosen by `process_file_and_upload`
(lines 1502-1530): a source whose lowercased suffix is `.mp4` or `.mkv`
is uploaded unchanged; every other video source is converted to `.mkv`.
No codec fact is consulted anywhere in this decision. -/
def planTarget (sourceExt : String) : String :=
  if lowerExt sourceExt = ".mp4" ∨ lowerExt sourceExt = ".mkv" then sourceExt else ".mkv"

/-- The planner as claim C6 words it, for comparison with `planTarget`:
keep the primary container `.mp4` exactly when the source is `.mp4` and
lacks the disallowed codec, otherwise target the secondary container
`.mkv`. -/
def planSpecC6 (sourceExt : String) (hasDisallowedCodec : Bool) : String :=
  if sourceExt = ".mp4" ∧ hasDisallowedCodec = false then ".mp4" else ".mkv"

/-! ## Delivery retry loop (C7) -/

/-- Observable behaviour of the upload loop: attempts actually made,
the backoff sleeps performed (in seconds, in order), and whether a
`send_video` call succeeded. -/
structure RetryResult where
  attempts : Nat
  sleeps : List Nat
  delivered : Bool
deriving DecidableEq, Repr

/-- Constant `MAX_RETRIES = 3` (`main.py` line 1555). -/
def MAX_RETRIES : Nat := 3

/-- The `while upload_attempts < MAX_RETRIES` loop (lines 1565-1593):
attempt `a`, and on failure sleep `2 ** a` seconds — even after the last
attempt — then iterate.  The body contains no cancellation check. -/
def uploadRetryGo (sendOk : Nat → Bool) (attempts : Nat) : Nat → RetryResult
  | 0 => ⟨attempts, [], false⟩
  | fuel + 1 =>
    let a := attempts + 1
    if sendOk a then ⟨a, [], true⟩
    else
      let r := uploadRetryGo sendOk a fuel
      ⟨r.attempts, 2 ^ a :: r.sleeps, r.delivered⟩

/-- The delivery retry loop of `process_file_and_upload`
(lines 1553-1593).  `sendOk a` tells whether the `a`-th `send_video`
call succeeds; `cancelled s` models the owner's cancel event being set
during the `s`-th backoff sleep — the loop never reads it. -/
def uploadVideoRetry (sendOk : Nat → Bool) (_cancelled : Nat → Bool) : RetryResult :=
  uploadRetryGo sendOk 0 MAX_RETRIES

/-! ## Media probe (C9) -/

/-- The metadata dict of `extract_video_metadata`
(`main.py` line 117): every field starts out `None`. -/
structure HachoirMeta where
  duration : Option Nat
  width : Option Nat
  height : Option Nat
deriving DecidableEq, Repr

/-- All-`None` metadata, the dict's initial value. -/
def emptyMeta : HachoirMeta := ⟨none, none, none⟩

/-- Behaviour of the hachoir library on one input file:
`createParser` may raise or return `None`; `extractMetadata` may raise or
return a falsy object; otherwise the fields it reports. -/
structure HachoirOracle where
  createRaises : Bool
  parserCreated : Bool
  extractRaises : Bool
  metaResult : Option HachoirMeta
deriving DecidableEq, Repr

/-- The `try` block of `extract_video_metadata` (lines 118-132):
raise points become `Except.error`; a missing parser or falsy metadata
object returns the still-empty dict. -/
def extractBody (o : HachoirOracle) : Except String HachoirMeta :=
  if o.createRaises then .error "createParser"
  else if o.parserCreated = false then .ok emptyMeta
  else if o.extractRaises then .error "extractMetadata"
  else
    match o.metaResult with
    | none => .ok emptyMeta
    | some m => .ok m

/-- Function `extract_video_metadata` (`main.py` lines 113-144): any exception is
caught and logged (lines 133-134) and the metadata dict — still holding
`None` fields — is returned; the `int` conversions (lines 137-142) keep
`None` fields `None`.  There is no secondary probing tool. -/
def extract_video_metadata (o : HachoirOracle) : HachoirMeta :=
  match extractBody o with
  | .ok m => m
  | .error _ => emptyMeta

/-! ## Chunked download (C10) -/

/-- Constant `MAX_SIZE = 4 * 1024 * 1024 * 1024` (`main.py` line 71). -/
def MAX_SIZE : Nat := 4 * 1024 * 1024 * 1024

/-- Result of `download_stream`: `(True, None)` with the byte total
written, or `(False, message)`. -/
inductive DlResult where
  | ok (total : Nat)
  | fail (msg : String)
deriving DecidableEq, Repr

/-- Size-limit error text (`main.py` line 318). -/
def sizeLimitMsg : String := "ফাইলের সাইজ 4GB এর বেশি হতে পারে না।"

/-- Cancellation error text (`main.py` line 314). -/
def cancelledMsg : String := "অপারেশন ব্যবহারকারী দ্বারা বাতিল করা হয়েছে।"

/-- The chunk loop of `download_stream` (lines 310-320): per chunk, first
the cancel check, then the empty-chunk break, then the size check on the
total *already written*, and only then the write (`total` grows by the
chunk). `cancel i` models `cancel_event.is_set()` when the `i`-th chunk
arrives. -/
def downloadGo (cancel : Nat → Bool) : List Nat → Nat → Nat → DlResult
  | [], total, _ => .ok total
  | c :: rest, total, i =>
    if cancel i then .fail cancelledMsg
    else if c = 0 then .ok total
    else if MAX_SIZE < total then .fail sizeLimitMsg
    else downloadGo cancel rest (total + c) (i + 1)

/-- Function `download_stream` (`main.py` lines 303-323) over the list of chunk
sizes delivered by the response stream. -/
def download_stream (chunks : List Nat) (cancel : Nat → Bool) : DlResult :=
  downloadGo cancel chunks 0 0

/-! ## Substring search used to state "the error message mentions N" -/

/-- Whether `sub` is an initial segment of `l`. -/
def startsWithList : List Char → List Char → Bool
  | [], _ => true
  | _ :: _, [] => false
  | a :: as, b :: bs => a == b && startsWithList as bs

/-- Whether `sub` occurs contiguously inside `l`. -/
def containsSub (sub : List Char) : List Char → Bool
  | [] => sub.isEmpty
  | b :: bs => startsWithList sub (b :: bs) || containsSub sub bs

/-- A string mentions another if it occurs as a contiguous substring. -/
def mentions (msg sub : String) : Prop := containsSub sub.data msg.data = true

instance (msg sub : String) : Decidable (mentions msg sub) := by
  unfold mentions; infer_instance

/-! # Theorems -/

/-! ## C4 — mode toggle-off and pending selections -/

/-- C4 is refuted by the code: with track-change mode on for owner `7`
and one pending selection held for one of owner `7`'s prompts, toggling
the mode off leaves the pending selection in place (still retrievable
under its prompt id) and unlinks no file, contradicting the claim that
toggle-off destroys the pending selections and releases the held
files. -/
theorem C4_counterexample :
    (toggle_audio_change_mode 7
        ⟨{7}, [(100, ⟨7, "tmp/audio_change_7_a.mkv", "a.mkv", []⟩)]⟩).1.pending_audio_orders
      = [(100, ⟨7, "tmp/audio_change_7_a.mkv", "a.mkv", []⟩)]
    ∧ plookup 100
        (toggle_audio_change_mode 7
          ⟨{7}, [(100, ⟨7, "tmp/audio_change_7_a.mkv", "a.mkv", []⟩)]⟩).1.pending_audio_orders
      = some ⟨7, "tmp/audio_change_7_a.mkv", "a.mkv", []⟩
    ∧ (toggle_audio_change_mode 7
        ⟨{7}, [(100, ⟨7, "tmp/audio_change_7_a.mkv", "a.mkv", []⟩)]⟩).2 = []
    ∧ 7 ∉ (toggle_audio_change_mode 7
        ⟨{7}, [(100, ⟨7, "tmp/audio_change_7_a.mkv", "a.mkv", []⟩)]⟩).1.audio_change_mode := by
  decide

/-- C4 amended: toggling track-change mode off only clears the mode flag
for that owner — every pending track selection survives untouched and no
held input file is released; a pending selection is destroyed with its
file released only by the prompt-scoped cancel button (or by a valid
reply). -/
theorem C4_amended (uid : Nat) (st : BotState) (h : uid ∈ st.audio_change_mode) :
    (toggle_audio_change_mode uid st).1.audio_change_mode = st.audio_change_mode.erase uid
    ∧ (toggle_audio_change_mode uid st).1.pending_audio_orders = st.pending_audio_orders
    ∧ (toggle_audio_change_mode uid st).2 = []
    ∧ uid ∉ (toggle_audio_change_mode uid st).1.audio_change_mode
    ∧ (∀ pid e, plookup pid st.pending_audio_orders = some e → e.uid = uid →
        cancel_task_cb pid uid st
          = (⟨st.audio_change_mode, eraseKey pid st.pending_audio_orders⟩, [e.path])) := by
  refine ⟨?_, ?_, ?_, ?_, ?_⟩
  · simp [toggle_audio_change_mode, h]
  · simp [toggle_audio_change_mode, h]
  · simp [toggle_audio_change_mode, h]
  · simp [toggle_audio_change_mode, h, Finset.not_mem_erase]
  · intro pid e hlook huid
    simp [cancel_task_cb, hlook, huid]

/-- Witness for `C4_amended` at a concrete state. -/
theorem C4_amended_witness :
    (toggle_audio_change_mode 7
        ⟨{7}, [(100, ⟨7, "tmp/audio_change_7_a.mkv", "a.mkv", []⟩)]⟩).1.pending_audio_orders
      = [(100, ⟨7, "tmp/audio_change_7_a.mkv", "a.mkv", []⟩)] :=
  (C4_amended 7 ⟨{7}, [(100, ⟨7, "tmp/audio_change_7_a.mkv", "a.mkv", []⟩)]⟩ (by decide)).2.1

/-! ## C6 — standardization planner -/

/-- C6 is refuted by the code: for a `.mp4` source that carries the
disallowed codec, the claim's planner targets `.mkv`, but
`process_file_and_upload` keeps `.mp4` — its container decision never
consults any codec fact. -/
theorem C6_counterexample :
    planTarget ".mp4" = ".mp4"
    ∧ planSpecC6 ".mp4" true = ".mkv"
    ∧ planTarget ".mp4" ≠ planSpecC6 ".mp4" true := by
  decide

/-- C6 amended: the target container equals the source container exactly
when the lowercased source extension is `.mp4` or `.mkv` — codec facts
are never consulted, so a `.mp4` source keeps its container even when it
carries the disallowed codec; every other source targets `.mkv`. -/
theorem C6_amended (ext : String) :
    (planTarget ext = ext ↔ (lowerExt ext = ".mp4" ∨ lowerExt ext = ".mkv"))
    ∧ (lowerExt ext ≠ ".mp4" → lowerExt ext ≠ ".mkv" → planTarget ext = ".mkv") := by
  constructor
  · constructor
    · intro h
      by_cases hc : lowerExt ext = ".mp4" ∨ lowerExt ext = ".mkv"
      · exact hc
      · unfold planTarget at h
        rw [if_neg hc] at h
        right
        rw [← h]
        decide
    · intro h
      unfold planTarget
      rw [if_pos h]
  · intro h1 h2
    unfold planTarget
    rw [if_neg (fun hc => hc.elim h1 h2)]

/-- Witness for `C6_amended`: an `.avi` source targets `.mkv`. -/
theorem C6_amended_witness : planTarget ".avi" = ".mkv" :=
  (C6_amended ".avi").2 (by decide) (by decide)

/-! ## C7 — delivery retry loop -/

/-- C7 is refuted by the code: with the owner's cancel token set from the
start (in particular during the first backoff sleep) and every
`send_video` call failing, the loop still performs all 3 attempts and all
three backoff sleeps instead of aborting early. -/
theorem C7_counterexample :
    uploadVideoRetry (fun _ => false) (fun _ => true) = ⟨3, [2, 4, 8], false⟩
    ∧ (uploadVideoRetry (fun _ => false) (fun _ => true)).attempts ≠ 1 := by
  decide

/-- C7 amended: delivery is attempted at most 3 times, with a
`2 ^ attempt` second backoff sleep after every failed attempt (so 2s
after the first failure, then 4s, then 8s — the loop even sleeps after
the final failed attempt); the cancel token is never consulted inside the
loop, so its state cannot abort the retry loop. -/
theorem C7_amended (sendOk c c' : Nat → Bool) :
    (uploadVideoRetry sendOk c).attempts ≤ MAX_RETRIES
    ∧ uploadVideoRetry sendOk c = uploadVideoRetry sendOk c'
    ∧ (uploadVideoRetry sendOk c).sleeps
        = (List.range' 1 (if (uploadVideoRetry sendOk c).delivered then
            (uploadVideoRetry sendOk c).attempts - 1
          else (uploadVideoRetry sendOk c).attempts)).map (fun a => 2 ^ a)
    ∧ ((uploadVideoRetry sendOk c).delivered = false →
        uploadVideoRetry sendOk c = ⟨3, [2, 4, 8], false⟩) := by
  cases h1 : sendOk 1 <;> cases h2 : sendOk 2 <;> cases h3 : sendOk 3 <;>
    simp [uploadVideoRetry, uploadRetryGo, MAX_RETRIES, h1, h2, h3, List.range']

/-- Witness for `C7_amended`: all attempts failing with an unset token
also yields 3 attempts and sleeps of 2s, 4s, 8s. -/
theorem C7_amended_witness :
    uploadVideoRetry (fun _ => false) (fun _ => false) = ⟨3, [2, 4, 8], false⟩ :=
  (C7_amended (fun _ => false) (fun _ => false) (fun _ => true)).2.2.2 (by decide)

/-! ## C9 — media probe -/

/-- C9 is refuted by the code: when the (only) parser cannot be created,
`extract_video_metadata` returns the dict with `None` duration, width and
height — there is no secondary-parser fallback and the fields are not
zeroed. -/
theorem C9_counterexample :
    extract_video_metadata ⟨false, false, false, none⟩ = ⟨none, none, none⟩
    ∧ extract_video_metadata ⟨false, false, false, none⟩ ≠ ⟨some 0, some 0, some 0⟩ := by
  decide

/-- C9 amended: the probe never raises — every library failure
(`createParser` raising or returning `None`, `extractMetadata` raising or
returning a falsy object) is absorbed and yields the dict with all three
fields `None`; otherwise exactly the parsed fields are returned.  There
is a single (hachoir) parser and no fallback, and failure fields are
`None`, not zero. -/
theorem C9_amended (o : HachoirOracle) :
    (extract_video_metadata o = emptyMeta ∨
      ∃ m, o.metaResult = some m ∧ extract_video_metadata o = m)
    ∧ ((o.createRaises = true ∨ o.parserCreated = false ∨ o.extractRaises = true
          ∨ o.metaResult = none)
        → extract_video_metadata o = emptyMeta) := by
  obtain ⟨cr, pc, er, mr⟩ := o
  cases cr <;> cases pc <;> cases er <;> cases mr <;>
    simp [extract_video_metadata, extractBody, emptyMeta]

/-- Witness for `C9_amended`: a raising `extractMetadata` call yields the
all-`None` dict. -/
theorem C9_amended_witness :
    extract_video_metadata ⟨false, true, true, none⟩ = emptyMeta :=
  (C9_amended ⟨false, true, true, none⟩).2 (Or.inr (Or.inr (Or.inl rfl)))

/-! ## C5 and C8 — track-order replies -/

theorem startsWithList_self_append (sub suf : List Char) :
    startsWithList sub (sub ++ suf) = true := by
  induction sub with
  | nil => rfl
  | cons a as ih => simp [startsWithList, ih]

theorem containsSub_of_eq_append (sub pre suf l : List Char)
    (h : l = pre ++ (sub ++ suf)) : containsSub sub l = true := by
  subst h
  induction pre with
  | nil =>
    cases sub with
    | nil => cases suf <;> simp [containsSub, startsWithList, List.isEmpty]
    | cons a as =>
      have h := startsWithList_self_append (a :: as) suf
      simp only [List.cons_append] at h
      simp [containsSub, h]
  | cons p ps ih => simp [containsSub, ih]

/-- A string of the shape `x ++ sub ++ y` mentions `sub`. -/
theorem mentions_of_parts (msg x y sub : String) (h : msg = x ++ sub ++ y) :
    mentions msg sub := by
  unfold mentions
  apply containsSub_of_eq_append sub.data x.data y.data
  rw [h]
  simp [String.data_append, List.append_assoc]

/-- The per-token mapping loop succeeds and maps each chosen 1-based
index to its track's stream index when every token is in range. -/
theorem buildMap_ok (tracks : List AudioTrack) (toks : List (List Char))
    (h : ∀ tok ∈ toks, 1 ≤ digitsVal tok ∧ digitsVal tok ≤ tracks.length) :
    buildMap tracks toks
      = .ok (toks.map fun tok =>
          "0:" ++ toString ((tracks.getD (digitsVal tok - 1) default).stream_index)) := by
  induction toks with
  | nil => rfl
  | cons tok rest ih =>
    have htok := h tok (List.mem_cons_self _ _)
    have hrest := ih fun t ht => h t (List.mem_cons_of_mem _ ht)
    simp [buildMap, htok, hrest]

/-- C5 is refuted by the code: with 4 audio tracks (fewer than the
subset threshold of 5), the reply `"2,4"` — all tokens integers in
`[1, 4]` — is rejected with an exact-count error instead of being
accepted as the strict-subset plan the claim describes. -/
theorem C5_counterexample :
    validateOrderReply "2,4"
        [⟨1, "und", "N/A"⟩, ⟨2, "und", "N/A"⟩, ⟨3, "und", "N/A"⟩, ⟨4, "und", "N/A"⟩]
      = .countMismatch 4
    ∧ validateOrderReply "2,4"
        [⟨1, "und", "N/A"⟩, ⟨2, "und", "N/A"⟩, ⟨3, "und", "N/A"⟩, ⟨4, "und", "N/A"⟩]
      ≠ .accepted ["0:2", "0:4"] := by
  decide

/-- C5 amended: a reply whose digit tokens are all in `[1, T]` is
accepted iff its token count equals `T` when `T < 5`, while for `T ≥ 5`
any count from 1 to `T` (strict subsets, repetitions, reorderings) is
accepted; an accepted reply pops the pending entry and maps video,
subtitles and data streams followed by exactly the chosen tracks'
`stream_index` values in reply order, with default disposition set on the
first mapped audio stream. -/
theorem C5_amended (tracks : List AudioTrack) (text : String)
    (pending : List (Nat × PendingEntry)) (promptId uid : Nat) (e : PendingEntry)
    (htoks : ∀ tok ∈ orderTokens text, 1 ≤ digitsVal tok ∧ digitsVal tok ≤ tracks.length)
    (hlen : 1 ≤ (orderTokens text).length)
    (hle : (orderTokens text).length ≤ tracks.length)
    (hcnt : tracks.length < 5 → (orderTokens text).length = tracks.length) :
    validateOrderReply text tracks
      = .accepted ((orderTokens text).map fun tok =>
          "0:" ++ toString ((tracks.getD (digitsVal tok - 1) default).stream_index))
    ∧ (plookup promptId pending = some e → e.uid = uid → e.tracks = tracks →
        (handleOrderReply pending promptId uid text).1 = eraseKey promptId pending)
    ∧ (∀ inP outP ms, remuxCmd inP outP ms
        = ["ffmpeg", "-i", inP, "-disposition:a", "0",
            "-map", "0:v", "-map", "0:s?", "-map", "0:d?"]
          ++ ms.flatMap (fun s => ["-map", s])
          ++ ["-disposition:a:0", "default", "-c", "copy", "-metadata", "handler_name=",
              outP]) := by
  have h1 : ¬(tracks.length < 5 ∧ (orderTokens text).length ≠ tracks.length) := by
    rintro ⟨ha, hb⟩
    exact hb (hcnt ha)
  have h2 : ¬((orderTokens text).length = 0) := by omega
  have h3 : ¬(tracks.length < (orderTokens text).length) := by omega
  have hval : validateOrderReply text tracks
      = .accepted ((orderTokens text).map fun tok =>
          "0:" ++ toString ((tracks.getD (digitsVal tok - 1) default).stream_index)) := by
    simp only [validateOrderReply, if_neg h1, if_neg h2, if_neg h3,
      buildMap_ok tracks (orderTokens text) htoks]
  refine ⟨hval, ?_, ?_⟩
  · intro hlook huid htr
    simp [handleOrderReply, hlook, huid, htr, hval]
  · intro inP outP ms
    simp [remuxCmd]

/-- Witness for `C5_amended`: with 5 audio tracks the strict subset
`"2,4"` is accepted and maps stream indices 2 then 4. -/
theorem C5_amended_witness :
    validateOrderReply "2,4"
        [⟨1, "und", "N/A"⟩, ⟨2, "und", "N/A"⟩, ⟨3, "und", "N/A"⟩, ⟨4, "und", "N/A"⟩,
          ⟨5, "und", "N/A"⟩]
      = .accepted ["0:2", "0:4"] :=
  ((C5_amended
      [⟨1, "und", "N/A"⟩, ⟨2, "und", "N/A"⟩, ⟨3, "und", "N/A"⟩, ⟨4, "und", "N/A"⟩,
        ⟨5, "und", "N/A"⟩]
      "2,4" [] 0 0 ⟨0, "", "", []⟩
      (by decide) (by decide) (by decide) (by decide)).1).trans (by decide)

/-- C8 is refuted on its message clause: a reply with no digit tokens
sent for a 5-track prompt is rejected with the fixed format-example
message, which names neither the expected range `1, 2, 3, 4, 5` nor the
required count — while, as the claim says, the pending entry itself stays
unchanged. -/
theorem C8_counterexample :
    validateOrderReply "x"
        [⟨1, "und", "N/A"⟩, ⟨2, "und", "N/A"⟩, ⟨3, "und", "N/A"⟩, ⟨4, "und", "N/A"⟩,
          ⟨5, "und", "N/A"⟩]
      = .badFormat
    ∧ (handleOrderReply
        [(10, ⟨1, "tmp/a.mkv", "a.mkv",
          [⟨1, "und", "N/A"⟩, ⟨2, "und", "N/A"⟩, ⟨3, "und", "N/A"⟩, ⟨4, "und", "N/A"⟩,
            ⟨5, "und", "N/A"⟩]⟩)] 10 1 "x").1
      = [(10, ⟨1, "tmp/a.mkv", "a.mkv",
          [⟨1, "und", "N/A"⟩, ⟨2, "und", "N/A"⟩, ⟨3, "und", "N/A"⟩, ⟨4, "und", "N/A"⟩,
            ⟨5, "und", "N/A"⟩]⟩)]
    ∧ orderReplyMessage .badFormat
      = some "ভুল ফরম্যাট। কমা-সেপারেটেড সংখ্যা দিন। উদাহরণ: `3,2,1`"
    ∧ ¬ mentions "ভুল ফরম্যাট। কমা-সেপারেটেড সংখ্যা দিন। উদাহরণ: `3,2,1`" "5"
    ∧ ¬ mentions "ভুল ফরম্যাট। কমা-সেপারেটেড সংখ্যা দিন। উদাহরণ: `3,2,1`"
        (joinComma [1, 2, 3, 4, 5]) := by
  decide

/-- C8 amended: a rejected track-order reply leaves the pending entry for
its prompt unchanged and still present, and the error message reports the
required count (count-mismatch and too-many errors) or the expected range
(out-of-range errors); only the malformed/empty-token-list error shows a
fixed format example with neither. -/
theorem C8_amended (pending : List (Nat × PendingEntry)) (promptId uid : Nat)
    (text : String) (e : PendingEntry) (r : OrderReply)
    (hlook : plookup promptId pending = some e) (huid : e.uid = uid)
    (hval : validateOrderReply text e.tracks = r)
    (hrej : ∀ ms, r ≠ .accepted ms) :
    handleOrderReply pending promptId uid text = (pending, some r)
    ∧ (∀ T, r = .countMismatch T →
        mentions ((orderReplyMessage r).getD "") (toString T))
    ∧ (∀ R T, r = .tooMany R T →
        mentions ((orderReplyMessage r).getD "") (toString T))
    ∧ (∀ n valid, r = .outOfRange n valid →
        mentions ((orderReplyMessage r).getD "") (joinComma valid))
    ∧ (r = .badFormat → orderReplyMessage r
        = some "ভুল ফরম্যাট। কমা-সেপারেটেড সংখ্যা দিন। উদাহরণ: `3,2,1`") := by
  refine ⟨?_, ?_, ?_, ?_, ?_⟩
  · unfold handleOrderReply
    rw [hlook]
    simp only [huid, if_pos rfl, hval]
    cases r with
    | accepted ms => exact absurd rfl (hrej ms)
    | countMismatch T => rfl
    | badFormat => rfl
    | tooMany R T => rfl
    | outOfRange n valid => rfl
  · rintro T rfl
    apply mentions_of_parts _ "এই ফাইলে "
      ("টি ট্র্যাক আছে। আপনাকে অবশ্যই ঠিক " ++ toString T ++ "টি ট্র্যাকের অর্ডার দিতে হবে।")
    simp [orderReplyMessage, String.append_assoc]
  · rintro R T rfl
    apply mentions_of_parts _ ("আপনি " ++ toString R ++ "টি ট্র্যাক চেয়েছেন, কিন্তু ফাইলে মাত্র ")
      "টি ট্র্যাক আছে।"
    simp [orderReplyMessage, String.append_assoc]
  · rintro n valid rfl
    apply mentions_of_parts _
      ("ভুল ট্র্যাক নম্বর: " ++ toString n ++ "। ট্র্যাক নম্বরগুলো হতে হবে: ") ""
    simp [orderReplyMessage, String.append_assoc]
  · rintro rfl
    rfl

/-- Witness for `C8_amended`: an out-of-range reply on a 4-track prompt
leaves the pending map unchanged and its message lists the valid range. -/
theorem C8_amended_witness :
    handleOrderReply
        [(10, ⟨1, "tmp/a.mkv", "a.mkv",
          [⟨1, "und", "N/A"⟩, ⟨2, "und", "N/A"⟩, ⟨3, "und", "N/A"⟩, ⟨4, "und", "N/A"⟩]⟩)]
        10 1 "9,1,2,3"
      = ([(10, ⟨1, "tmp/a.mkv", "a.mkv",
          [⟨1, "und", "N/A"⟩, ⟨2, "und", "N/A"⟩, ⟨3, "und", "N/A"⟩, ⟨4, "und", "N/A"⟩]⟩)],
          some (.outOfRange 9 [1, 2, 3, 4]))
    ∧ mentions ((orderReplyMessage (.outOfRange 9 [1, 2, 3, 4])).getD "")
        (joinComma [1, 2, 3, 4]) := by
  have h := C8_amended
    [(10, ⟨1, "tmp/a.mkv", "a.mkv",
      [⟨1, "und", "N/A"⟩, ⟨2, "und", "N/A"⟩, ⟨3, "und", "N/A"⟩, ⟨4, "und", "N/A"⟩]⟩)]
    10 1 "9,1,2,3"
    ⟨1, "tmp/a.mkv", "a.mkv",
      [⟨1, "und", "N/A"⟩, ⟨2, "und", "N/A"⟩, ⟨3, "und", "N/A"⟩, ⟨4, "und", "N/A"⟩]⟩
    (.outOfRange 9 [1, 2, 3, 4]) (by decide) (by decide) (by decide)
    (fun ms hm => OrderReply.noConfusion hm)
  exact ⟨h.1, h.2.2.2.1 9 [1, 2, 3, 4] rfl⟩

/-! ## C10 — download size cap -/

/-- A download whose running total stays within the cap writes every
chunk and succeeds. -/
theorem downloadGo_ok (chunks : List Nat) (t i : Nat) (h0 : ∀ c ∈ chunks, c ≠ 0)
    (ht : t + chunks.sum ≤ MAX_SIZE) :
    downloadGo (fun _ => false) chunks t i = .ok (t + chunks.sum) := by
  induction chunks generalizing t i with
  | nil => simp [downloadGo]
  | cons c rest ih =>
    simp only [List.sum_cons] at ht
    have hc : c ≠ 0 := h0 c (by simp)
    have hnle : ¬ MAX_SIZE < t := by omega
    have hrec := ih (t + c) (i + 1) (fun d hd => h0 d (List.mem_cons_of_mem c hd)) (by omega)
    simp [downloadGo, hc, hnle, hrec, Nat.add_assoc]

/-- Once some proper prefix of the chunk stream pushes the running total
over the cap, the loop fails with the size-limit message. -/
theorem downloadGo_reject (chunks : List Nat) (t i : Nat) (h0 : ∀ c ∈ chunks, c ≠ 0)
    (hle : t ≤ MAX_SIZE)
    (hex : ∃ n, n < chunks.length ∧ MAX_SIZE < t + (chunks.take n).sum) :
    downloadGo (fun _ => false) chunks t i = .fail sizeLimitMsg := by
  induction chunks generalizing t i with
  | nil =>
    obtain ⟨n, hn, _⟩ := hex
    simp at hn
  | cons c rest ih =>
    obtain ⟨n, hn, hgt⟩ := hex
    have hc : c ≠ 0 := h0 c (by simp)
    have hn0 : n ≠ 0 := by
      rintro rfl
      simp [List.take] at hgt
      omega
    obtain ⟨m, rfl⟩ : ∃ m, n = m + 1 := ⟨n - 1, by omega⟩
    simp only [List.take_succ_cons, List.sum_cons] at hgt
    have hm : m < rest.length := by simpa using hn
    have hnle : ¬ MAX_SIZE < t := by omega
    by_cases htc : t + c ≤ MAX_SIZE
    · have hrec := ih (t + c) (i + 1) (fun d hd => h0 d (List.mem_cons_of_mem c hd)) htc
        ⟨m, hm, by omega⟩
      simp [downloadGo, hc, hnle, hrec]
    · cases rest with
      | nil => simp at hm
      | cons d ds =>
        have hd : d ≠ 0 := h0 d (by simp)
        have hlt : MAX_SIZE < t + c := by omega
        simp [downloadGo, hc, hd, hnle, hlt]

/-- A size-limit failure exposes a proper prefix that crossed the cap,
with the prefix one chunk shorter still within the cap (the check runs
before each write, so the cap is overshot by at most one chunk). -/
theorem downloadGo_fail_inv (chunks : List Nat) (t i : Nat)
    (hfail : downloadGo (fun _ => false) chunks t i = .fail sizeLimitMsg) :
    ∃ n, n < chunks.length ∧ MAX_SIZE < t + (chunks.take n).sum
      ∧ (n = 0 ∨ t + (chunks.take (n - 1)).sum ≤ MAX_SIZE) := by
  induction chunks generalizing t i with
  | nil => simp [downloadGo] at hfail
  | cons c rest ih =>
    by_cases hc : c = 0
    · simp [downloadGo, hc] at hfail
    · by_cases hlt : MAX_SIZE < t
      · exact ⟨0, by simp, by simpa using hlt, Or.inl rfl⟩
      · have hrec : downloadGo (fun _ => false) rest (t + c) (i + 1) = .fail sizeLimitMsg := by
          simpa [downloadGo, hc, hlt] using hfail
        obtain ⟨m, hm, hgt, hor⟩ := ih (t + c) (i + 1) hrec
        refine ⟨m + 1, by simpa using hm, ?_, Or.inr ?_⟩
        · simpa [List.take_succ_cons, List.sum_cons, Nat.add_assoc] using hgt
        · cases hor with
          | inl h0 =>
            subst h0
            simp
            omega
          | inr hb =>
            cases m with
            | zero =>
              simp
              omega
            | succ k =>
              simp only [Nat.add_sub_cancel] at hb ⊢
              simp only [List.take_succ_cons, List.sum_cons] at hb ⊢
              omega

/-- C10: `download_stream` enforces the 4 GiB cap with the size check on
the total already written, run before each chunk write — a stream whose
total stays within the cap is never rejected for size; a size rejection
happens exactly when some proper prefix of the stream exceeds the cap,
and the written bytes then overshoot the cap by at most the one chunk
that crossed it. -/
theorem C10_size_cap :
    MAX_SIZE = 4 * 1024 * 1024 * 1024
    ∧ ∀ chunks : List Nat, (∀ c ∈ chunks, c ≠ 0) →
        ((chunks.sum ≤ MAX_SIZE →
            download_stream chunks (fun _ => false) = .ok chunks.sum)
          ∧ (download_stream chunks (fun _ => false) = .fail sizeLimitMsg →
              ∃ n, 0 < n ∧ n < chunks.length ∧ MAX_SIZE < (chunks.take n).sum
                ∧ (chunks.take (n - 1)).sum ≤ MAX_SIZE)
          ∧ ((∃ n, n < chunks.length ∧ MAX_SIZE < (chunks.take n).sum) →
              download_stream chunks (fun _ => false) = .fail sizeLimitMsg)) := by
  refine ⟨rfl, fun chunks h0 => ⟨?_, ?_, ?_⟩⟩
  · intro hsum
    have h := downloadGo_ok chunks 0 0 h0 (by simpa using hsum)
    simpa [download_stream] using h
  · intro hfail
    obtain ⟨n, hn, hgt, hor⟩ :=
      downloadGo_fail_inv chunks 0 0 (by simpa [download_stream] using hfail)
    have hn0 : n ≠ 0 := by
      rintro rfl
      simp [MAX_SIZE] at hgt
    cases hor with
    | inl h => exact absurd h hn0
    | inr hb =>
      exact ⟨n, Nat.pos_of_ne_zero hn0, hn, by simpa using hgt, by simpa using hb⟩
  · rintro ⟨n, hn, hgt⟩
    have h := downloadGo_reject chunks 0 0 h0 (Nat.zero_le _)
      ⟨n, hn, by simpa using hgt⟩
    simpa [download_stream] using h

/-- Witness for `C10_size_cap`: a small download succeeds with its byte
total, and a stream whose first chunk already exceeds 4 GiB is rejected
with the size-limit message at the next chunk boundary. -/
theorem C10_size_cap_witness :
    download_stream [10, 20] (fun _ => false) = .ok 30
    ∧ download_stream [4294967297, 1] (fun _ => false) = .fail sizeLimitMsg := by
  constructor
  · exact (C10_size_cap.2 [10, 20] (by decide)).1 (by decide)
  · exact (C10_size_cap.2 [4294967297, 1] (by decide)).2.2 ⟨1, by decide, by decide⟩

/-! ## C1, C2, C3 — caption engine: supporting lemmas -/

theorem str_empty_append (s : String) : "" ++ s = s := by
  cases s
  rfl

theorem strJoin_append (a b : List String) : strJoin (a ++ b) = strJoin a ++ strJoin b := by
  induction a with
  | nil => simp [strJoin, str_empty_append]
  | cons x xs ih => simp [strJoin, ih, String.append_assoc]

theorem firstCycle_litSegs_append (xs : List String) (l : List Seg) :
    firstCycle (litSegs xs ++ l) = firstCycle l := by
  induction xs with
  | nil => rfl
  | cons x t ih => simp [litSegs]; exact ih

theorem filterMap_segCounterKey_litSegs (xs : List String) :
    (litSegs xs).filterMap segCounterKey = [] := by
  induction xs with
  | nil => rfl
  | cons x t ih => simpa [litSegs, List.filterMap_cons, segCounterKey] using ih

theorem cycleReplace_litSegs (repl : String) (xs : List String) :
    (litSegs xs).map (cycleReplace repl) = litSegs xs := by
  induction xs with
  | nil => rfl
  | cons x t ih => simp [litSegs, cycleReplace, ih]

theorem filterMap_segCounterKey_cycleReplace (repl : String) (tmpl : List Seg) :
    (tmpl.map (cycleReplace repl)).filterMap segCounterKey
      = tmpl.filterMap segCounterKey := by
  induction tmpl with
  | nil => rfl
  | cons a l ih => cases a <;> simp [cycleReplace, List.filterMap_cons, segCounterKey, ih]

theorem uniqueCounterKeys_map_cycleReplace (repl : String) (tmpl : List Seg) :
    uniqueCounterKeys (tmpl.map (cycleReplace repl)) = uniqueCounterKeys tmpl := by
  unfold uniqueCounterKeys
  rw [filterMap_segCounterKey_cycleReplace]

/-- Cycle substitution neither adds nor removes counter keys. -/
theorem uniqueCounterKeys_cycleStep (st : CounterState) (tmpl : List Seg) :
    uniqueCounterKeys (cycleStep st tmpl).2 = uniqueCounterKeys tmpl := by
  unfold cycleStep
  cases h : firstCycle tmpl with
  | none => rfl
  | some raw => exact uniqueCounterKeys_map_cycleReplace _ tmpl

/-- The cycle step never touches the counter dict. -/
theorem cycleStep_dc (st : CounterState) (tmpl : List Seg) :
    (cycleStep st tmpl).1.dynamic_counters = st.dynamic_counters := by
  unfold cycleStep
  cases h : firstCycle tmpl with
  | none => rfl
  | some raw =>
    by_cases hl : (parseOptions raw).length = 0 <;> simp [hl]

/-- The counter dict after one expansion: fold `seedOrBump` over the
template's counter keys. -/
theorem process_state_dc (st : CounterState) (tmpl : List Seg) :
    (process_dynamic_caption st tmpl).1.dynamic_counters
      = (uniqueCounterKeys tmpl).foldl seedOrBump st.dynamic_counters := by
  simp [process_dynamic_caption, counterStep, cycleStep_dc,
    uniqueCounterKeys_cycleStep]

/-- The counter step never touches the cycle offset. -/
theorem counterStep_rc (st : CounterState) (tmpl : List Seg) :
    (counterStep st tmpl).re_options_count = st.re_options_count := rfl

theorem char_digit_ne_paren (c : Char) (h : c.isDigit = true) : c ≠ '(' ∧ c ≠ ')' := by
  constructor <;> rintro rfl <;> exact absurd h (by decide)

theorem stripParens_digits (s : String) (h : s.data.all Char.isDigit = true) :
    stripParens s = s := by
  unfold stripParens
  have hfilter : s.data.filter (fun c => !(c == '(' || c == ')')) = s.data := by
    apply List.filter_eq_self.mpr
    intro c hc
    have hcd : c.isDigit = true := List.all_eq_true.mp h c hc
    obtain ⟨h1, h2⟩ := char_digit_ne_paren c hcd
    simp [h1, h2]
  rw [hfilter]

theorem hasParenKey_digits (s : String) (hne : s.data ≠ [])
    (h : s.data.all Char.isDigit = true) : hasParenKey s = false := by
  unfold hasParenKey
  cases hd : s.data with
  | nil => exact absurd hd hne
  | cons c rest =>
    have hcd : c.isDigit = true := List.all_eq_true.mp (hd ▸ h) c (by simp)
    obtain ⟨h1, _⟩ := char_digit_ne_paren c hcd
    simp [h1]

theorem seedVal_digits (s : String) (h : s.data.all Char.isDigit = true) :
    seedVal s = digitsVal s.data := by
  unfold seedVal
  rw [stripParens_digits s h]

theorem keyOf_false (s : String) : keyOf s false = s := rfl

/-- Counter-dict evolution for a template whose only counter key is the
bare literal `s`: the `k+1`-st expansion leaves the dict holding `s` at
its seed value plus `k`. -/
theorem expandState_dc_single (tmpl : List Seg) (s : String)
    (hkeys : uniqueCounterKeys tmpl = [s]) (k : Nat) :
    (expandState tmpl (k + 1)).dynamic_counters
      = [(s, ⟨seedVal s + k, hasParenKey s⟩)] := by
  induction k with
  | zero =>
    show (process_dynamic_caption (expandState tmpl 0) tmpl).1.dynamic_counters = _
    rw [process_state_dc, hkeys]
    simp [expandState, initCounterState, seedOrBump, alookup]
  | succ k ih =>
    show (process_dynamic_caption (expandState tmpl (k + 1)) tmpl).1.dynamic_counters = _
    rw [process_state_dc, hkeys]
    simp [ih, seedOrBump, alookup, bumpKey, Nat.add_assoc]

/-- Counter-dict evolution for a template with no counter keys: the dict
stays empty forever. -/
theorem expandState_dc_nil (tmpl : List Seg)
    (hkeys : uniqueCounterKeys tmpl = []) (k : Nat) :
    (expandState tmpl k).dynamic_counters = [] := by
  induction k with
  | zero => rfl
  | succ k ih =>
    show (process_dynamic_caption (expandState tmpl k) tmpl).1.dynamic_counters = _
    rw [process_state_dc, hkeys]
    simpa using ih

theorem strJoin_map_litSegs (dc : List (String × CounterEntry)) (ep : Nat)
    (xs : List String) :
    strJoin ((litSegs xs).map (renderSeg dc ep)) = strJoin xs := by
  induction xs with
  | nil => rfl
  | cons x t ih =>
    simp only [litSegs, List.map_cons, List.map_map, strJoin] at ih ⊢
    rw [ih]
    rfl

theorem firstCycle_litSegs (xs : List String) : firstCycle (litSegs xs) = none := by
  simpa using firstCycle_litSegs_append xs []

/-- Expansion output for a cycle-free template. -/
theorem process_output_nocycle (st : CounterState) (tmpl : List Seg)
    (h : firstCycle tmpl = none) :
    (process_dynamic_caption st tmpl).2
      = strJoin (tmpl.map (renderSeg
          ((uniqueCounterKeys tmpl).foldl seedOrBump st.dynamic_counters)
          (episodeNum ((uniqueCounterKeys tmpl).foldl seedOrBump st.dynamic_counters)))) := by
  have hcs : cycleStep { st with uploads := st.uploads + 1 } tmpl
      = ({ st with uploads := st.uploads + 1 }, tmpl) := by
    unfold cycleStep
    rw [h]
  simp [process_dynamic_caption, hcs, counterStep]

/-! ## C3 — lone counter, no cycle -/

/-- C3: for a template whose only placeholder is one bare counter with
literal digit string `s` (seed `N`, width `W = s.length`) and no cycle,
the `k+1`-st expansion after template-set renders the counter as
`N + k` zero-padded to `W` digits — i.e. expansion `k` renders
`N + (k-1)`. -/
theorem C3_counter_rendering (pre post : List String) (s : String) (k : Nat)
    (hne : s.data ≠ []) (hdig : s.data.all Char.isDigit = true) :
    nthExpansion (litSegs pre ++ Seg.counter s false :: litSegs post) (k + 1)
      = strJoin pre ++ (zeroPad s.length (digitsVal s.data + k) ++ strJoin post) := by
  have hfc : firstCycle (litSegs pre ++ Seg.counter s false :: litSegs post) = none := by
    rw [firstCycle_litSegs_append]
    show firstCycle (litSegs post) = none
    exact firstCycle_litSegs post
  have hkeys : uniqueCounterKeys (litSegs pre ++ Seg.counter s false :: litSegs post)
      = [s] := by
    unfold uniqueCounterKeys
    rw [List.filterMap_append, filterMap_segCounterKey_litSegs]
    simp [List.filterMap_cons, segCounterKey, keyOf_false, filterMap_segCounterKey_litSegs]
  have hdc : (uniqueCounterKeys (litSegs pre ++ Seg.counter s false :: litSegs post)).foldl
        seedOrBump (expandState (litSegs pre ++ Seg.counter s false :: litSegs post) k).dynamic_counters
      = [(s, ⟨digitsVal s.data + k, false⟩)] := by
    rw [← process_state_dc]
    have h1 := expandState_dc_single _ s hkeys k
    rw [seedVal_digits s hdig, hasParenKey_digits s hne hdig] at h1
    exact h1
  show (process_dynamic_caption
      (expandState (litSegs pre ++ Seg.counter s false :: litSegs post) k)
      (litSegs pre ++ Seg.counter s false :: litSegs post)).2 = _
  rw [process_output_nocycle _ _ hfc, hdc]
  have hep : episodeNum [(s, ⟨digitsVal s.data + k, false⟩)] = digitsVal s.data + k := rfl
  rw [hep, List.map_append, strJoin_append, strJoin_map_litSegs]
  simp only [List.map_cons, strJoin]
  rw [strJoin_map_litSegs]
  have hrc : renderSeg [(s, ⟨digitsVal s.data + k, false⟩)] (digitsVal s.data + k)
        (Seg.counter s false)
      = zeroPad s.length (digitsVal s.data + k) := by
    simp [renderSeg, keyOf_false, alookup, stripParens_digits s hdig]
  rw [hrc]

/-- Witness for `C3_counter_rendering`: the scenario `"[01] Episode"`
renders `"02 Episode"` on the second expansion. -/
theorem C3_witness :
    nthExpansion (litSegs [] ++ Seg.counter "01" false :: litSegs [" Episode"]) 2
      = "02 Episode" :=
  (C3_counter_rendering [] [" Episode"] "01" 1 (by decide) (by decide)).trans (by decide)

/-! ## C1 — cycle plus counter -/

/-- C1 is refuted by the code: for the template
`"[re (480p, 720p)] [01]"` the second expansion renders `"720p 02"`, not
the claimed `"720p 01"` — the bare counter advances on every expansion,
not once per full cycle lap (the first four expansions render
`480p 01`, `720p 02`, `480p 03`, `720p 04`). -/
theorem C1_counterexample :
    nthExpansion [Seg.cycle "480p, 720p", Seg.lit " ", Seg.counter "01" false] 1
      = "480p 01"
    ∧ nthExpansion [Seg.cycle "480p, 720p", Seg.lit " ", Seg.counter "01" false] 2
      = "720p 02"
    ∧ nthExpansion [Seg.cycle "480p, 720p", Seg.lit " ", Seg.counter "01" false] 2
      ≠ "720p 01"
    ∧ nthExpansion [Seg.cycle "480p, 720p", Seg.lit " ", Seg.counter "01" false] 3
      = "480p 03"
    ∧ nthExpansion [Seg.cycle "480p, 720p", Seg.lit " ", Seg.counter "01" false] 4
      = "720p 04" := by
  refine ⟨by decide, by decide, by decide, by decide, by decide⟩

theorem succ_mod_formula (a C : Nat) (hC : 0 < C) :
    (a + 1) % C = if a % C + 1 = C then 0 else a % C + 1 := by
  have hd := Nat.div_add_mod a C
  have h1 : a + 1 = (a % C + 1) + C * (a / C) := by omega
  rw [h1, Nat.add_mul_mod_self_left]
  by_cases h : a % C + 1 = C
  · rw [if_pos h, h, Nat.mod_self]
  · have hlt : a % C < C := Nat.mod_lt a hC
    rw [if_neg h, Nat.mod_eq_of_lt (by omega)]

theorem cycleReplace_cycle (r raw : String) : cycleReplace r (Seg.cycle raw) = Seg.lit r := rfl

theorem cycleReplace_counter (r s : String) (p : Bool) :
    cycleReplace r (Seg.counter s p) = Seg.counter s p := rfl

/-- Characterization of the cycle step when the template holds a cycle
with a nonempty option list. -/
theorem cycleStep_eq_cycle (st : CounterState) (tmpl : List Seg) (raw : String)
    (hfc : firstCycle tmpl = some raw) (hlen : parseOptions raw ≠ []) :
    cycleStep st tmpl
      = ({ st with re_options_count :=
            (if (parseOptions raw).length ≤ st.re_options_count then 0
              else st.re_options_count) + 1 },
          tmpl.map (cycleReplace ((parseOptions raw).getD
            (if (parseOptions raw).length ≤ st.re_options_count then 0
              else st.re_options_count) ""))) := by
  have hC : ¬((parseOptions raw).length = 0) := by
    simpa [List.length_eq_zero] using hlen
  unfold cycleStep
  rw [hfc]
  simp [hC, List.getD]

theorem process_state_rc_cycle (st : CounterState) (tmpl : List Seg) (raw : String)
    (hfc : firstCycle tmpl = some raw) (hlen : parseOptions raw ≠ []) :
    (process_dynamic_caption st tmpl).1.re_options_count
      = (if (parseOptions raw).length ≤ st.re_options_count then 0
          else st.re_options_count) + 1 := by
  have hcs := cycleStep_eq_cycle { st with uploads := st.uploads + 1 } tmpl raw hfc hlen
  simp [process_dynamic_caption, hcs, counterStep]

/-- Cycle-offset evolution: after the `k+1`-st expansion the offset is
`k % C + 1`. -/
theorem expandState_rc (tmpl : List Seg) (raw : String)
    (hfc : firstCycle tmpl = some raw) (hlen : parseOptions raw ≠ []) (k : Nat) :
    (expandState tmpl (k + 1)).re_options_count
      = k % (parseOptions raw).length + 1 := by
  have hC : 0 < (parseOptions raw).length := List.length_pos.mpr hlen
  induction k with
  | zero =>
    show (process_dynamic_caption (expandState tmpl 0) tmpl).1.re_options_count = _
    rw [process_state_rc_cycle _ _ _ hfc hlen]
    have h0 : (if (parseOptions raw).length ≤ (expandState tmpl 0).re_options_count then 0
        else (expandState tmpl 0).re_options_count) = 0 := by
      simp [expandState, initCounterState]
    rw [h0, Nat.zero_mod]
  | succ k ih =>
    show (process_dynamic_caption (expandState tmpl (k + 1)) tmpl).1.re_options_count = _
    rw [process_state_rc_cycle _ _ _ hfc hlen, ih, succ_mod_formula k _ hC]
    have hlt : k % (parseOptions raw).length < (parseOptions raw).length :=
      Nat.mod_lt k hC
    by_cases h : k % (parseOptions raw).length + 1 = (parseOptions raw).length
    · rw [if_pos (by omega), if_pos h]
    · rw [if_neg (by omega), if_neg h]

/-- The option index selected at the `k+1`-st expansion is `k % C`. -/
theorem expandState_pick (tmpl : List Seg) (raw : String)
    (hfc : firstCycle tmpl = some raw) (hlen : parseOptions raw ≠ []) (k : Nat) :
    (if (parseOptions raw).length ≤ (expandState tmpl k).re_options_count then 0
      else (expandState tmpl k).re_options_count)
      = k % (parseOptions raw).length := by
  have hC : 0 < (parseOptions raw).length := List.length_pos.mpr hlen
  cases k with
  | zero =>
    rw [Nat.zero_mod]
    simp [expandState, initCounterState]
  | succ k =>
    rw [expandState_rc tmpl raw hfc hlen k, succ_mod_formula k _ hC]
    have hlt : k % (parseOptions raw).length < (parseOptions raw).length :=
      Nat.mod_lt k hC
    by_cases h : k % (parseOptions raw).length + 1 = (parseOptions raw).length
    · rw [if_pos (by omega), if_pos h]
    · rw [if_neg (by omega), if_neg h]

/-- Expansion output for a template carrying a cycle with a nonempty
option list. -/
theorem process_output_cycle (st : CounterState) (tmpl : List Seg) (raw : String)
    (hfc : firstCycle tmpl = some raw) (hlen : parseOptions raw ≠ []) :
    (process_dynamic_caption st tmpl).2
      = strJoin ((tmpl.map (cycleReplace ((parseOptions raw).getD
          (if (parseOptions raw).length ≤ st.re_options_count then 0
            else st.re_options_count) ""))).map
          (renderSeg ((uniqueCounterKeys tmpl).foldl seedOrBump st.dynamic_counters)
            (episodeNum
              ((uniqueCounterKeys tmpl).foldl seedOrBump st.dynamic_counters)))) := by
  have hcs := cycleStep_eq_cycle { st with uploads := st.uploads + 1 } tmpl raw hfc hlen
  simp [process_dynamic_caption, hcs, counterStep, uniqueCounterKeys_map_cycleReplace]

/-- C1 amended: for a template with one cycle of options `os` and one
bare counter, expansion `k+1` replaces every cycle occurrence with
`os[k % C]` (the claim's `options[(k-1) mod C]`), but the bare counter
advances on every expansion — it renders `N + k`, not `N + (k / C)`: the
"once per lap" behaviour is not implemented. -/
theorem C1_cycle_and_counter (pre mid post : List String) (raw s : String) (k : Nat)
    (hlen : parseOptions raw ≠ [])
    (hne : s.data ≠ []) (hdig : s.data.all Char.isDigit = true) :
    nthExpansion (litSegs pre ++ Seg.cycle raw
        :: (litSegs mid ++ Seg.counter s false :: litSegs post)) (k + 1)
      = strJoin pre ++ ((parseOptions raw).getD (k % (parseOptions raw).length) ""
          ++ (strJoin mid ++ (zeroPad s.length (digitsVal s.data + k)
            ++ strJoin post))) := by
  have hfc : firstCycle (litSegs pre ++ Seg.cycle raw
      :: (litSegs mid ++ Seg.counter s false :: litSegs post)) = some raw := by
    rw [firstCycle_litSegs_append]
    rfl
  have hkeys : uniqueCounterKeys (litSegs pre ++ Seg.cycle raw
      :: (litSegs mid ++ Seg.counter s false :: litSegs post)) = [s] := by
    unfold uniqueCounterKeys
    rw [List.filterMap_append, filterMap_segCounterKey_litSegs]
    simp [List.filterMap_cons, List.filterMap_append, segCounterKey,
      filterMap_segCounterKey_litSegs, keyOf_false]
  have hdc : (uniqueCounterKeys (litSegs pre ++ Seg.cycle raw
        :: (litSegs mid ++ Seg.counter s false :: litSegs post))).foldl
        seedOrBump (expandState (litSegs pre ++ Seg.cycle raw
          :: (litSegs mid ++ Seg.counter s false :: litSegs post)) k).dynamic_counters
      = [(s, ⟨digitsVal s.data + k, false⟩)] := by
    rw [← process_state_dc]
    have h1 := expandState_dc_single _ s hkeys k
    rw [seedVal_digits s hdig, hasParenKey_digits s hne hdig] at h1
    exact h1
  show (process_dynamic_caption
      (expandState (litSegs pre ++ Seg.cycle raw
        :: (litSegs mid ++ Seg.counter s false :: litSegs post)) k)
      (litSegs pre ++ Seg.cycle raw
        :: (litSegs mid ++ Seg.counter s false :: litSegs post))).2 = _
  rw [process_output_cycle _ _ raw hfc hlen, hdc,
    expandState_pick _ raw hfc hlen k]
  have hep : episodeNum [(s, ⟨digitsVal s.data + k, false⟩)] = digitsVal s.data + k := rfl
  rw [hep]
  have hrc : renderSeg [(s, ⟨digitsVal s.data + k, false⟩)] (digitsVal s.data + k)
        (Seg.counter s false)
      = zeroPad s.length (digitsVal s.data + k) := by
    simp [renderSeg, keyOf_false, alookup, stripParens_digits s hdig]
  have hlit : ∀ x, renderSeg [(s, ⟨digitsVal s.data + k, false⟩)] (digitsVal s.data + k)
      (Seg.lit x) = x := fun _ => rfl
  simp only [List.map_append, List.map_cons, cycleReplace_litSegs, cycleReplace_cycle,
    cycleReplace_counter, strJoin_append, strJoin_map_litSegs, strJoin, hrc, hlit]

/-- Witness for `C1_cycle_and_counter`: the scenario template
`"[re (480p, 720p)] [01]"` renders `"720p 02"` on expansion 2. -/
theorem C1_witness :
    nthExpansion (litSegs [] ++ Seg.cycle "480p, 720p"
        :: (litSegs [" "] ++ Seg.counter "01" false :: litSegs [])) 2
      = "720p 02" :=
  (C1_cycle_and_counter [] [" "] [] "480p, 720p" "01" 1 (by decide) (by decide)
    (by decide)).trans (by decide)

/-! ## C2 — conditional placeholder -/

/-- C2 is refuted by the code: a conditional whose target is not
parseable as a number is left in the caption verbatim (the `ValueError`
branch skips it), not replaced by the empty string — with no counters the
claimed output would be `""`. -/
theorem C2_counterexample :
    nthExpansion [Seg.cond "End " "xx"] 1 = "[End (xx)]"
    ∧ nthExpansion [Seg.cond "End " "xx"] 1 ≠ "" := by
  refine ⟨by decide, by decide⟩

/-- For a conditional in canonical form — capture group 1 strips to `t`
(with its surface text rebuilding exactly, i.e. one space before the
parenthesis), group 2 already stripped — the rendering substitutes `t`
when the episode number equals the parsed target, the empty string when
it differs, and keeps the placeholder verbatim when the target does not
parse as an integer. -/
theorem renderCond_canonical (ep : Nat) (g1 g2 t : String)
    (htext : String.mk (stripList g1.data) = t)
    (htarget : String.mk (stripList g2.data) = g2)
    (hsurf : "[" ++ g1 ++ "(" ++ g2 ++ ")]" = "[" ++ t ++ " (" ++ g2 ++ ")]") :
    renderCond ep g1 g2
      = (match pyInt g2 with
        | none => "[" ++ t ++ " (" ++ g2 ++ ")]"
        | some m => if (ep : Int) = m then t else "") := by
  cases hpy : pyInt g2 with
  | none => simpa [renderCond, hpy] using hsurf
  | some m =>
    simp only [renderCond, hpy, htext, htarget]
    rw [if_pos hsurf]

/-- C2 amended: `[TEXT (M)]` renders `TEXT` exactly when the minimum of
the counter values (`0` when there are no counters) equals `M` parsed as
an integer, and the empty string when it differs — but an `M` that is not
parseable as an integer leaves the placeholder in the caption verbatim
rather than substituting the empty string. -/
theorem C2_conditional_rendering (pre mid post pre2 post2 : List String)
    (s g1 g2 t : String) (k : Nat)
    (hne : s.data ≠ []) (hdig : s.data.all Char.isDigit = true)
    (htext : String.mk (stripList g1.data) = t)
    (htarget : String.mk (stripList g2.data) = g2)
    (hsurf : "[" ++ g1 ++ "(" ++ g2 ++ ")]" = "[" ++ t ++ " (" ++ g2 ++ ")]") :
    nthExpansion (litSegs pre ++ Seg.counter s false
        :: (litSegs mid ++ Seg.cond g1 g2 :: litSegs post)) (k + 1)
      = strJoin pre ++ (zeroPad s.length (digitsVal s.data + k)
          ++ (strJoin mid
            ++ ((match pyInt g2 with
                | none => "[" ++ t ++ " (" ++ g2 ++ ")]"
                | some m => if ((digitsVal s.data + k : Nat) : Int) = m then t else "")
              ++ strJoin post)))
    ∧ nthExpansion (litSegs pre2 ++ Seg.cond g1 g2 :: litSegs post2) (k + 1)
      = strJoin pre2 ++ ((match pyInt g2 with
            | none => "[" ++ t ++ " (" ++ g2 ++ ")]"
            | some m => if (0 : Int) = m then t else "")
          ++ strJoin post2) := by
  constructor
  · have hfc : firstCycle (litSegs pre ++ Seg.counter s false
        :: (litSegs mid ++ Seg.cond g1 g2 :: litSegs post)) = none := by
      rw [firstCycle_litSegs_append]
      show firstCycle (litSegs mid ++ Seg.cond g1 g2 :: litSegs post) = none
      rw [firstCycle_litSegs_append]
      show firstCycle (litSegs post) = none
      exact firstCycle_litSegs post
    have hkeys : uniqueCounterKeys (litSegs pre ++ Seg.counter s false
        :: (litSegs mid ++ Seg.cond g1 g2 :: litSegs post)) = [s] := by
      unfold uniqueCounterKeys
      rw [List.filterMap_append, filterMap_segCounterKey_litSegs]
      simp [List.filterMap_cons, List.filterMap_append, segCounterKey,
        filterMap_segCounterKey_litSegs, keyOf_false]
    have hdc : (uniqueCounterKeys (litSegs pre ++ Seg.counter s false
          :: (litSegs mid ++ Seg.cond g1 g2 :: litSegs post))).foldl
          seedOrBump (expandState (litSegs pre ++ Seg.counter s false
            :: (litSegs mid ++ Seg.cond g1 g2 :: litSegs post)) k).dynamic_counters
        = [(s, ⟨digitsVal s.data + k, false⟩)] := by
      rw [← process_state_dc]
      have h1 := expandState_dc_single _ s hkeys k
      rw [seedVal_digits s hdig, hasParenKey_digits s hne hdig] at h1
      exact h1
    show (process_dynamic_caption
        (expandState (litSegs pre ++ Seg.counter s false
          :: (litSegs mid ++ Seg.cond g1 g2 :: litSegs post)) k)
        (litSegs pre ++ Seg.counter s false
          :: (litSegs mid ++ Seg.cond g1 g2 :: litSegs post))).2 = _
    rw [process_output_nocycle _ _ hfc, hdc]
    have hep : episodeNum [(s, ⟨digitsVal s.data + k, false⟩)]
        = digitsVal s.data + k := rfl
    rw [hep]
    have hrc : renderSeg [(s, ⟨digitsVal s.data + k, false⟩)] (digitsVal s.data + k)
          (Seg.counter s false)
        = zeroPad s.length (digitsVal s.data + k) := by
      simp [renderSeg, keyOf_false, alookup, stripParens_digits s hdig]
    have hcond : renderSeg [(s, ⟨digitsVal s.data + k, false⟩)] (digitsVal s.data + k)
          (Seg.cond g1 g2)
        = renderCond (digitsVal s.data + k) g1 g2 := rfl
    simp only [List.map_append, List.map_cons, strJoin_append, strJoin_map_litSegs,
      strJoin, hrc, hcond, renderCond_canonical _ g1 g2 t htext htarget hsurf]
  · have hfc : firstCycle (litSegs pre2 ++ Seg.cond g1 g2 :: litSegs post2) = none := by
      rw [firstCycle_litSegs_append]
      show firstCycle (litSegs post2) = none
      exact firstCycle_litSegs post2
    have hkeys : uniqueCounterKeys (litSegs pre2 ++ Seg.cond g1 g2 :: litSegs post2)
        = [] := by
      unfold uniqueCounterKeys
      rw [List.filterMap_append, filterMap_segCounterKey_litSegs]
      simp [List.filterMap_cons, segCounterKey, filterMap_segCounterKey_litSegs]
    have hdc : (uniqueCounterKeys (litSegs pre2 ++ Seg.cond g1 g2 :: litSegs post2)).foldl
          seedOrBump (expandState (litSegs pre2
            ++ Seg.cond g1 g2 :: litSegs post2) k).dynamic_counters
        = [] := by
      rw [hkeys]
      simpa using expandState_dc_nil _ hkeys k
    show (process_dynamic_caption
        (expandState (litSegs pre2 ++ Seg.cond g1 g2 :: litSegs post2) k)
        (litSegs pre2 ++ Seg.cond g1 g2 :: litSegs post2)).2 = _
    rw [process_output_nocycle _ _ hfc, hdc]
    have hep : episodeNum [] = 0 := rfl
    rw [hep]
    have hcond : renderSeg [] 0 (Seg.cond g1 g2) = renderCond 0 g1 g2 := rfl
    simp only [List.map_append, List.map_cons, strJoin_append, strJoin_map_litSegs,
      strJoin, hcond, renderCond_canonical 0 g1 g2 t htext htarget hsurf]
    norm_cast

/-- Witness for `C2_conditional_rendering`: with the template
`"[01] [End (02)]"` the second expansion has episode number 2, so the
conditional substitutes `"End"` and the caption is `"02 End"`. -/
theorem C2_witness :
    nthExpansion (litSegs [] ++ Seg.counter "01" false
        :: (litSegs [" "] ++ Seg.cond "End " "02" :: litSegs [])) 2
      = "02 End" :=
  ((C2_conditional_rendering [] [" "] [] [] [] "01" "End " "02" "End" 1
      (by decide) (by decide) (by decide) (by decide) (by decide)).1).trans (by decide)

end Bot3
